import Mathlib

/-!
# Shallow embedding of the xenforo-dl crawler core

This file embeds, in Lean 4, the parts of the xenforo-dl repository that the
verified properties talk about:

* the thread-message resume logic of `XenForoDownloader.#downloadThread`
  (dropping already-persisted messages, per-message persist loop, resume
  marker writes);
* the forum traversal recursion of `XenForoDownloader.#downloadForum`;
* the error-propagation discipline (`#isErrorNonContinuable` and the
  try/catch boundaries around each unit of work);
* the attachment download pipeline of `Fetcher` (`downloadAttachment`,
  `fetchHTML`, `#fetchWithRedirect`, `#commitDownload`, `#cleanupDownload`);
* the directory layout resolver `#getThreadSavePath` together with
  `URLHelper.parseForumURL`;
* the skip-existing logic of `#downloadMessageAttachment`.

JavaScript idioms are embedded explicitly: truthiness tests on optional
numbers/strings become `jsTruthyNat` / `jsTruthyStr`, `Array.findIndex`
becomes `findIndex` (returning `-1 : Int` on no match), and unbounded
recursion (redirect chains, forum recursion) is interpreted with explicit
fuel, `none` meaning the recursion has not completed within the given fuel.
-/

namespace XenForoDL

/-! ## Data model (src/lib/entities/Thread.ts) -/

/-- `ThreadMessageAttachment` from entities/Thread.ts.  `filename?` is an
optional string; `index` is the attachment's position within the message. -/
structure ThreadMessageAttachment where
  id : Nat
  index : Nat
  url : String
  filename : Option String
deriving Repr, DecidableEq

/-- `ThreadMessage` from entities/Thread.ts (fields not used by the verified
properties — author, publishedAt, body — are omitted from the embedding). -/
structure ThreadMessage where
  id : Nat
  index : String
  attachments : List ThreadMessageAttachment
deriving Repr, DecidableEq

/-- One breadcrumb entry of `Thread.breadcrumbs`. -/
structure Crumb where
  url : String
  title : String
deriving Repr, DecidableEq

/-- The parts of `ThreadPage` consumed by `#getThreadSavePath` and the
message loop of `#downloadThread`. -/
structure ThreadPage where
  id : Nat
  url : String
  title : String
  breadcrumbs : List Crumb
  messages : List ThreadMessage
deriving Repr, DecidableEq

/-- JavaScript truthiness of an optional number: `undefined` and `0` are
falsy. -/
def jsTruthyNat : Option Nat → Bool
  | none => false
  | some n => n != 0

/-- JavaScript truthiness of an optional string: `undefined` and `""` are
falsy. -/
def jsTruthyStr : Option String → Bool
  | none => false
  | some s => s != ""

/-! ## Resume logic of `#downloadThread` (XenForoDownloader.ts lines 192-201) -/

/-- JavaScript `Array.prototype.findIndex`: index of the first element
satisfying `p`, or `-1` when there is none. -/
def findIndex (p : α → Bool) : List α → Int
  | [] => -1
  | x :: xs =>
    if p x then 0
    else
      let r := findIndex p xs
      if r ≥ 0 then r + 1 else -1

/-- XenForoDownloader.ts lines 192-201: when the context carries a truthy
`continueFromMessageID`, find the first message with that id and
`splice(0, i + 1)` it and everything before it out of the list; when the id
is not found (or the context carries none), the list is left unchanged. -/
def dropContinuedMessages (continueFromMessageID : Option Nat)
    (messages : List ThreadMessage) : List ThreadMessage :=
  if jsTruthyNat continueFromMessageID then
    let m := continueFromMessageID.getD 0
    let i := findIndex (fun msg => msg.id == m) messages
    if i ≥ 0 then messages.drop (i.toNat + 1) else messages
  else
    messages

/-! ## The per-message persist loop (XenForoDownloader.ts lines 248-266)

Each iteration of the loop: download the message's attachments (when it has
any), append the formatted message to the transcript file
(`#saveMessage`), bump `processedMessageCount`, then write the resume
marker (`#saveDownloadStatus`, lines 508-522) carrying the message's id. -/

/-- Observable events of the `#downloadThread` message loop, in program
order. -/
inductive ThreadEvent where
  /-- `Promise.all(message.attachments.map(... #downloadMessageAttachment))`
  for the message with the given id. -/
  | downloadAttachments (messageID : Nat)
  /-- `#saveMessage`: append the message's transcript to the message file. -/
  | appendMessage (messageID : Nat)
  /-- `#saveDownloadStatus`: write the resume marker with
  `messageID = lastSavedMessage.id`. -/
  | saveStatus (messageID : Nat)
deriving Repr, DecidableEq

/-- Trace of events produced by the `for (const message of threadPage.messages)`
loop (lines 248-266), paired with the number of messages processed
(the increments of `processedMessageCount`). -/
def processMessages : List ThreadMessage → List ThreadEvent × Nat
  | [] => ([], 0)
  | msg :: rest =>
    let pre : List ThreadEvent :=
      if msg.attachments.length > 0 then [ThreadEvent.downloadAttachments msg.id] else []
    let r := processMessages rest
    (pre ++ ThreadEvent.appendMessage msg.id :: ThreadEvent.saveStatus msg.id :: r.1, r.2 + 1)

/-- The event trace of a whole thread run: the pages of the thread are
processed in order (the `#downloadThread` recursion on `nextURL`), each page
contributing the trace of its message loop. -/
def threadRunTrace (pages : List (List ThreadMessage)) : List ThreadEvent :=
  (pages.map (fun msgs => (processMessages msgs).1)).flatten

/-- The sequence of `messageID` values written to the thread's
download-status record, in write order. -/
def statusWrites (tr : List ThreadEvent) : List Nat :=
  tr.filterMap (fun e =>
    match e with
    | ThreadEvent.saveStatus m => some m
    | _ => none)

/-- The ids of all messages of a run, page after page. -/
def pagesMessageIDs (pages : List (List ThreadMessage)) : List Nat :=
  pages.flatten.map ThreadMessage.id

/-- A trace in which every `saveStatus m` event is immediately preceded by
the `appendMessage m` event for the same message id. -/
def SavesImmediatelyAfterAppends (tr : List ThreadEvent) : Prop :=
  ∀ l r m, tr = l ++ ThreadEvent.saveStatus m :: r →
    l.getLast? = some (ThreadEvent.appendMessage m)

/-! ## Errors (Fetcher.ts `FetcherError`, node-fetch `AbortError`)

`XenForoDownloader.#isErrorNonContinuable` (lines 378-380) and every catch
block of `Fetcher` test the same condition:
`error instanceof AbortError || (error instanceof FetcherError && error.fatal)`. -/

/-- The error values the crawler distinguishes.  `fetcherError` carries the
`fatal` flag and, for retry-exhaustion errors, the `retried N times`
annotation of the message (0 when absent). `networkError` stands for any
other error thrown by the HTTP layer (DNS failure, connection reset,
timeout); `otherError` for any other non-fetch error (e.g. a parse
failure). -/
inductive FetchErr where
  | abortError
  | fetcherError (fatal : Bool) (retried : Nat)
  | networkError
  | otherError
deriving Repr, DecidableEq

/-- `#isErrorNonContinuable` (XenForoDownloader.ts lines 378-380), and the
identical inline test in each catch block of Fetcher.ts. -/
def isErrorNonContinuable : FetchErr → Bool
  | FetchErr.abortError => true
  | FetchErr.fetcherError fatal _ => fatal
  | FetchErr.networkError => false
  | FetchErr.otherError => false

/-! ## Redirect handling (Fetcher.ts `#fetchWithRedirect`, `#setHeaders`) -/

/-- A URL, reduced to the parts `#fetchWithRedirect` inspects: `new URL(u).host`
and the rest of the URL. -/
structure URLv where
  host : String
  path : String
deriving Repr, DecidableEq

/-- What the network answers a request with: a 3xx response carrying a
`Location` header, or a final (non-3xx) response.  (The code's dead branch
for a 3xx response without a `Location` header is not modelled.) -/
inductive NetResponse where
  | redirect (location : URLv)
  | final
deriving Repr, DecidableEq

/-- One actual HTTP request issued by `#fetchWithRedirect`: the URL it hit
and whether the `Cookie` header was attached by `#setHeaders`. -/
structure FetchEvent where
  url : URLv
  cookieSent : Bool
deriving Repr, DecidableEq

/-- Fetcher.ts lines 161-176 (`#fetchWithRedirect`) with lines 200-205
(`#setHeaders`): issue the request with the cookie attached iff a cookie is
configured (`hasCookie`) and `useCookie` is set; on a 3xx response recompute
`redirectWithCookie := new URL(url).host === new URL(toURL).host` and
recurse on the `Location` target.  The JavaScript recursion is unbounded;
here it runs on explicit fuel, `none` meaning the chain did not finish
within the fuel.  The result is the list of requests issued, in order. -/
def fetchWithRedirect (net : URLv → NetResponse) (hasCookie : Bool) :
    Nat → URLv → Bool → Option (List FetchEvent)
  | 0, _, _ => none
  | fuel + 1, url, useCookie =>
    let ev : FetchEvent := ⟨url, hasCookie && useCookie⟩
    match net url with
    | NetResponse.final => some [ev]
    | NetResponse.redirect toURL =>
      let redirectWithCookie := url.host == toURL.host
      match fetchWithRedirect net hasCookie fuel toURL redirectWithCookie with
      | none => none
      | some evs => some (ev :: evs)

/-- A concrete site used to exercise the redirect chain: the original URL on
`forum.example.com` redirects to `cdn.example.net`, which redirects once
more within `cdn.example.net`, which then answers finally. -/
def crossHostNet : URLv → NetResponse :=
  fun u =>
    if u = ⟨"forum.example.com", "/a"⟩ then NetResponse.redirect ⟨"cdn.example.net", "/b"⟩
    else if u = ⟨"cdn.example.net", "/b"⟩ then NetResponse.redirect ⟨"cdn.example.net", "/c"⟩
    else NetResponse.final

/-! ## Attachment download (Fetcher.ts `downloadAttachment`, lines 119-159,
with `#commitDownload` 178-186 and `#cleanupDownload` 188-198), and the page
fetch `fetchHTML` (lines 57-84). -/

/-- How one download attempt plays out, as seen by `downloadAttachment`:

* `fetchThrows e` — the awaited `#fetchWithRedirect(src, 'GET', signal)`
  call itself rejects (network error, timeout, abort).  In the source this
  await sits *outside* the try/catch.
* `respNotOk` — a response arrives but `#assertResponseOK` rejects it
  (no response, non-2xx status, or empty body), throwing a non-fatal
  `FetcherError` before the `.part` file is created.
* `streamFails e` — the `pipeline` into the `.part` file throws mid-stream
  (including an abort), leaving a partially written `.part` file that the
  catch block hands to `#cleanupDownload`.
* `renameFails e` — the stream completed but `renameSync` in
  `#commitDownload` throws; the `finally` block deletes the `.part` file.
* `success` — the stream completes and `renameSync` promotes the `.part`
  file onto the destination path.

`#cleanupDownload` swallows its own errors; its unlink is modelled as
succeeding. -/
inductive AttemptFate where
  | fetchThrows (e : FetchErr)
  | respNotOk
  | streamFails (e : FetchErr)
  | renameFails (e : FetchErr)
  | success
deriving Repr, DecidableEq

/-- State of one file on disk. -/
inductive FileState where
  | absent
  | incomplete
  | complete
deriving Repr, DecidableEq

/-- The files `downloadAttachment` touches: the destination directory, the
temporary `<destPath>.part` file, and `destPath` itself. -/
structure FS where
  dirExists : Bool
  part : FileState
  dest : FileState
deriving Repr, DecidableEq

/-- Fetcher.ts lines 119-159: `downloadAttachment(params, rt)`.  `fates rt`
says how the attempt numbered `rt` plays out.  Returns the thrown error or
success, together with the final file state.

Control flow mirrored from the source: the initial `#fetchWithRedirect`
await is outside the try, so its rejection propagates as-is without
retrying; every error raised inside the try is re-thrown when
non-continuable, retried while `rt < maxRetries`, and otherwise converted to
a non-fatal `FetcherError` whose message carries the `retried rt times`
annotation. -/
def downloadAttachment (fates : Nat → AttemptFate) (maxRetries : Nat)
    (rt : Nat) (fs : FS) : Except FetchErr Unit × FS :=
  match fates rt with
  | AttemptFate.fetchThrows e => (Except.error e, fs)
  | AttemptFate.success =>
      (Except.ok (), { dirExists := true, part := FileState.absent, dest := FileState.complete })
  | AttemptFate.respNotOk =>
      if h : rt < maxRetries then downloadAttachment fates maxRetries (rt + 1) fs
      else (Except.error (FetchErr.fetcherError false rt), fs)
  | AttemptFate.streamFails e =>
      let fs' : FS := { dirExists := true, part := FileState.absent, dest := fs.dest }
      if isErrorNonContinuable e then (Except.error e, fs')
      else if h : rt < maxRetries then downloadAttachment fates maxRetries (rt + 1) fs'
      else (Except.error (FetchErr.fetcherError false rt), fs')
  | AttemptFate.renameFails e =>
      let fs' : FS := { dirExists := true, part := FileState.absent, dest := fs.dest }
      if isErrorNonContinuable e then (Except.error e, fs')
      else if h : rt < maxRetries then downloadAttachment fates maxRetries (rt + 1) fs'
      else (Except.error (FetchErr.fetcherError false rt), fs')
termination_by maxRetries - rt
decreasing_by all_goals omega

/-- Fetcher.ts lines 57-84: `fetchHTML(args, rt)`.  Unlike
`downloadAttachment`, the `#fetchWithRedirect` await sits *inside* the
try/catch, so a rejected fetch is retried like any other failure (and
`fetchHTML` performs no status check: any response's text is returned). -/
def fetchHTML (fates : Nat → AttemptFate) (maxRetries : Nat) (rt : Nat) :
    Except FetchErr Unit :=
  match fates rt with
  | AttemptFate.fetchThrows e =>
      if isErrorNonContinuable e then Except.error e
      else if h : rt < maxRetries then fetchHTML fates maxRetries (rt + 1)
      else Except.error (FetchErr.fetcherError false rt)
  | _ => Except.ok ()
termination_by maxRetries - rt
decreasing_by all_goals omega

/-! ## Unit-of-work error boundaries

`#downloadForum` (lines 287-333), `#downloadThread` (165-285),
`#downloadGeneric` (335-356) and `#downloadMessageAttachment` (418-451) all
wrap each unit of work in the same pattern:

```
try { ... } catch (error) {
  if (this.#isErrorNonContinuable(error)) { throw error; }
  this.log('error', error);
  this.#updateStatsOnError(error, stats);   // errorCount++
}
```

followed by the next sibling unit. -/

/-- A sequence of sibling units of work, each either completing (`none`) or
raising an error (`some e`), processed left to right with the boundary
pattern above.  Returns `ok (processedUnits, errorCount)` when the loop runs
to the end, or `error (e, processedUnits, errorCount)` when a unit raises a
non-continuable error that unwinds the loop. -/
def processUnits : List (Option FetchErr) → Nat → Nat →
    Except (FetchErr × Nat × Nat) (Nat × Nat)
  | [], processed, errors => Except.ok (processed, errors)
  | u :: rest, processed, errors =>
    match u with
    | none => processUnits rest (processed + 1) errors
    | some e =>
      if isErrorNonContinuable e then Except.error (e, processed, errors)
      else processUnits rest (processed + 1) (errors + 1)

/-- The number of units in a list that raise an error. -/
def countFailedUnits (units : List (Option FetchErr)) : Nat :=
  units.countP (fun u => u.isSome)

/-! ## `#downloadMessageAttachment` (XenForoDownloader.ts lines 418-451) -/

/-- The statistics counters `#downloadMessageAttachment` touches. -/
structure AttachmentStats where
  skippedExistingAttachmentCount : Nat
  downloadedAttachmentCount : Nat
  errorCount : Nat
deriving Repr, DecidableEq

/-- Externally visible actions of `#downloadMessageAttachment`. -/
inductive AttachmentAction where
  /-- `fetcher.downloadAttachment` scheduled on the attachment limiter:
  a network fetch of the given source URL. -/
  | fetchAttachment (url : String)
deriving Repr, DecidableEq

/-- `#getMessageAttachmentFilename` (lines 453-459): a name derived from the
attachment's id and its inline filename, or from id and index when the
filename is absent or empty; `sanitize` is the `sanitize-filename` library,
an external utility kept abstract. -/
def getMessageAttachmentFilename (sanitize : String → String)
    (a : ThreadMessageAttachment) : String :=
  if jsTruthyStr a.filename then
    sanitize ("attach-" ++ toString a.id ++ " - " ++ a.filename.getD "")
  else
    sanitize ("attach-" ++ toString a.id ++ "-" ++ toString a.index)

/-- `path.resolve(destDir, filename)` for an already-absolute `destDir`. -/
def pathResolve (dir filename : String) : String := dir ++ "/" ++ filename

/-- XenForoDownloader.ts lines 418-451 (`#downloadMessageAttachment`):
if the destination file exists and overwrite is off, increment the skipped
counter and return with no further action; otherwise perform the fetch
(whose outcome is `downloadOutcome`: `none` = success), incrementing the
downloaded counter on success, re-throwing non-continuable errors, and
counting any other error. -/
def downloadMessageAttachment (sanitize : String → String)
    (existsFile : String → Bool) (overwrite : Bool)
    (downloadOutcome : Option FetchErr) (a : ThreadMessageAttachment)
    (destDir : String) (stats : AttachmentStats) :
    Except FetchErr (AttachmentStats × List AttachmentAction) :=
  let filename := getMessageAttachmentFilename sanitize a
  let destPath := pathResolve destDir filename
  if existsFile destPath && !overwrite then
    Except.ok ({ stats with
      skippedExistingAttachmentCount := stats.skippedExistingAttachmentCount + 1 }, [])
  else
    match downloadOutcome with
    | none =>
      Except.ok ({ stats with
        downloadedAttachmentCount := stats.downloadedAttachmentCount + 1 },
        [AttachmentAction.fetchAttachment a.url])
    | some e =>
      if isErrorNonContinuable e then Except.error e
      else
        Except.ok ({ stats with errorCount := stats.errorCount + 1 },
          [AttachmentAction.fetchAttachment a.url])

/-! ## Directory layout resolver (`#getThreadSavePath`, lines 382-416, and
`URLHelper.parseForumURL`, URLHelper.ts lines 28-41) -/

/-- The `'all' | 'immediate' | 'none'` values of
`dirStructure.parentForumsAndSections` (DownloaderOptions.ts). -/
inductive ParentForumsOpt where
  | all
  | immediate
  | none
deriving Repr, DecidableEq

/-- `dirStructure` configuration (DownloaderOptions.ts). -/
structure DirStructure where
  site : Bool
  parentForumsAndSections : ParentForumsOpt
  thread : Bool
  attachments : Bool
deriving Repr, DecidableEq

/-- JavaScript `Number` on a non-empty digit string. -/
def digitsToNat (ds : List Char) : Nat :=
  ds.foldl (fun acc c => acc * 10 + (c.toNat - '0'.toNat)) 0

/-- Match the regex tail `(.+)\.(\d+)` against `cs`: a greedy `.+` picks the
rightmost `.` that is followed by at least one digit, and `\d+` greedily
takes the maximal digit run after it.  Returns `(slug, digits)`; slug may be
empty here (the caller rejects an empty slug, since `.+` needs one
character). -/
def matchDotNum : List Char → Option (List Char × List Char)
  | [] => Option.none
  | c :: rest =>
    match matchDotNum rest with
    | some (slug, ds) => some (c :: slug, ds)
    | Option.none =>
      if c = '.' then
        let ds := rest.takeWhile Char.isDigit
        if ds.isEmpty then Option.none else some ([], ds)
      else Option.none

/-- Scan of the regex `/\/forums\/(.+)\.(\d+)/` over the characters of a
URL: at each position try the literal `/forums/` followed by
`(.+)\.(\d+)`; on failure move one character right, exactly as the
JavaScript regex engine scans.  Returns `Number(matches[2])`. -/
def parseForumURLFrom : List Char → Option Nat
  | [] => Option.none
  | c :: rest =>
    if (c :: rest).take 8 = "/forums/".toList then
      match matchDotNum ((c :: rest).drop 8) with
      | some (slug, ds) =>
        if slug.isEmpty then parseForumURLFrom rest else some (digitsToNat ds)
      | Option.none => parseForumURLFrom rest
    else parseForumURLFrom rest

/-- `URLHelper.parseForumURL(url)?.id` (URLHelper.ts lines 28-41). -/
def parseForumURL (url : String) : Option Nat :=
  parseForumURLFrom url.toList

/-- `__pushPathPart(title, id?)` inside `#getThreadSavePath` (lines 384-391):
append `sanitize(title + '.' + id)` when `id` is truthy, else
`sanitize(title)`. -/
def pushPathPart (sanitize : String → String) (title : String)
    (id : Option Nat) : String :=
  if jsTruthyNat id then sanitize (title ++ "." ++ toString (id.getD 0))
  else sanitize title

/-- `#getThreadSavePath` (lines 382-416): the path segments pushed, in
order — the site crumb (no id suffix) when enabled and titled; then,
when there is more than one breadcrumb, the ancestor forum crumbs
(`'all'`: every crumb after the first; `'immediate'`: the last crumb) with
ids taken from `URLHelper.parseForumURL(crumb.url)?.id`; then the thread
segment with the thread's id. -/
def getThreadSavePathParts (sanitize : String → String) (cfg : DirStructure)
    (thread : ThreadPage) : List String :=
  let crumb0title : Option String := thread.breadcrumbs.head?.map Crumb.title
  let p1 : List String :=
    if cfg.site && jsTruthyStr crumb0title then
      [pushPathPart sanitize (crumb0title.getD "") Option.none]
    else []
  let p2 : List String :=
    if thread.breadcrumbs.length > 1 then
      match cfg.parentForumsAndSections with
      | ParentForumsOpt.all =>
        (thread.breadcrumbs.drop 1).filterMap (fun crumb =>
          if jsTruthyStr (some crumb.title) then
            some (pushPathPart sanitize crumb.title (parseForumURL crumb.url))
          else Option.none)
      | ParentForumsOpt.immediate =>
        match thread.breadcrumbs.getLast? with
        | some crumb =>
          if jsTruthyStr (some crumb.title) then
            [pushPathPart sanitize crumb.title (parseForumURL crumb.url)]
          else []
        | Option.none => []
      | ParentForumsOpt.none => []
    else []
  let p3 : List String :=
    if cfg.thread && jsTruthyStr (some thread.title) then
      [pushPathPart sanitize thread.title (some thread.id)]
    else []
  p1 ++ p2 ++ p3

/-- `path.resolve(this.config.outDir, pathParts.join(path.sep))`, as the
list of path segments from the output root. -/
def getThreadSavePath (sanitize : String → String) (cfg : DirStructure)
    (outDir : String) (thread : ThreadPage) : List String :=
  outDir :: getThreadSavePathParts sanitize cfg thread

/-! ## Forum traversal (`#downloadForum`, lines 287-333) -/

/-- A parsed forum page, reduced to what drives the traversal: the
pagination cursor and the subforum links.  (Thread processing inside a page
always terminates and is not modelled.) -/
structure ForumPageData where
  id : Nat
  title : String
  subforums : List String
  nextURL : Option String
deriving Repr, DecidableEq

mutual

/-- `#downloadForum(url)` interpreted with fuel: fetch and parse the page
(`site url`; `none` models a fetch/parse error, which the unit boundary
absorbs, ending the unit normally), then recurse on `nextURL` when present,
otherwise recurse into each subforum in order.  The JavaScript recursion is
unbounded and carries no visited set; `none` here means the recursion did
not complete within the given fuel. -/
def downloadForumFuel (site : String → Option ForumPageData) :
    Nat → String → Option Unit
  | 0, _ => Option.none
  | fuel + 1, url =>
    match site url with
    | Option.none => some ()
    | some page =>
      match page.nextURL with
      | some nxt => downloadForumFuel site fuel nxt
      | Option.none => downloadSubforumsFuel site fuel page.subforums
termination_by fuel _ => (fuel, 0)

/-- The `for (const subforum of forumPage.subforums)` loop (lines 326-329). -/
def downloadSubforumsFuel (site : String → Option ForumPageData) :
    Nat → List String → Option Unit
  | _, [] => some ()
  | fuel, u :: rest =>
    match downloadForumFuel site fuel u with
    | Option.none => Option.none
    | some _ => downloadSubforumsFuel site fuel rest
termination_by fuel l => (fuel, l.length + 1)

end

/-- A forum whose page lists itself as its own subforum: the malformed
graph of the termination claim. -/
def cyclicSite : String → Option ForumPageData :=
  fun url =>
    if url = "https://site.example.com/forums/a.1/" then
      some ⟨1, "A", ["https://site.example.com/forums/a.1/"], Option.none⟩
    else Option.none

/-! ## Lemmas about `findIndex` and `dropContinuedMessages` -/

/-- When no element satisfies `p`, JavaScript `findIndex` returns `-1`. -/
theorem findIndex_eq_neg_one {p : α → Bool} {l : List α}
    (h : ∀ x ∈ l, p x = false) : findIndex p l = -1 := by
  induction l with
  | nil => rfl
  | cons x xs ih =>
    have hx : p x = false := h x (List.mem_cons_self x xs)
    have hxs : findIndex p xs = -1 := ih fun y hy => h y (List.mem_cons_of_mem x hy)
    simp [findIndex, hx, hxs]

/-- `findIndex` on a list whose first match sits right after `pre` returns
`pre.length`. -/
theorem findIndex_append_first {p : α → Bool} (pre : List α) (x : α) (post : List α)
    (hpre : ∀ y ∈ pre, p y = false) (hx : p x = true) :
    findIndex p (pre ++ x :: post) = (pre.length : Int) := by
  induction pre with
  | nil => simp [findIndex, hx]
  | cons a as ih =>
    have ha : p a = false := hpre a (List.mem_cons_self a as)
    have has : findIndex p (as ++ x :: post) = (as.length : Int) :=
      ih fun y hy => hpre y (List.mem_cons_of_mem a hy)
    have hge : (as.length : Int) ≥ 0 := Int.ofNat_nonneg _
    simp [findIndex, ha, has, hge]

/-- C1: when thread handling continues from messageID `m` and the page's
message list contains a message with id `m` (written here as the
decomposition `pre ++ msg :: post` where `msg` is the first such message),
the resume logic removes exactly `pre ++ [msg]` — the messages up to and
including the first message with id `m` — leaving `post` in its original
order; and if nothing remains, the message loop appends and counts
nothing. -/
theorem dropContinuedMessages_removes_through_first_match
    (m : Nat) (pre post : List ThreadMessage) (msg : ThreadMessage)
    (hm : 0 < m) (hmsg : msg.id = m) (hpre : ∀ y ∈ pre, y.id ≠ m) :
    dropContinuedMessages (some m) (pre ++ msg :: post) = post
    ∧ (post = [] →
        processMessages (dropContinuedMessages (some m) (pre ++ msg :: post)) = ([], 0)) := by
  have htruthy : jsTruthyNat (some m) = true := by
    simp [jsTruthyNat]
    omega
  have hfi : findIndex (fun msg' => msg'.id == m) (pre ++ msg :: post) = (pre.length : Int) := by
    apply findIndex_append_first
    · intro y hy
      simpa using hpre y hy
    · simpa using hmsg
  have hdrop : dropContinuedMessages (some m) (pre ++ msg :: post) = post := by
    have hrw : pre ++ msg :: post = (pre ++ [msg]) ++ post := by simp
    have hlen : (pre ++ [msg]).length = pre.length + 1 := by simp
    simp only [dropContinuedMessages, htruthy, if_pos, hfi, Option.getD]
    have hge : (pre.length : Int) ≥ 0 := Int.ofNat_nonneg _
    simp only [hge, if_pos, Int.toNat_ofNat]
    rw [hrw]
    exact List.drop_left' hlen
  refine ⟨hdrop, fun hpost => ?_⟩
  rw [hdrop, hpost]
  rfl

/-- Witness for C1 at a concrete page: messages with ids 1, 2, 3, continuing
from id 2 leaves only the message with id 3. -/
theorem dropContinuedMessages_removes_through_first_match_witness :
    dropContinuedMessages (some 2)
      ([⟨1, "1", []⟩] ++ (⟨2, "2", []⟩ : ThreadMessage) :: [⟨3, "3", []⟩]) = [⟨3, "3", []⟩] :=
  (dropContinuedMessages_removes_through_first_match 2 [⟨1, "1", []⟩] [⟨3, "3", []⟩]
    ⟨2, "2", []⟩ (by decide) (by decide) (by decide)).1

/-- C10: when thread handling continues from messageID `m` but no message on
the fetched page has id `m`, no messages are dropped — the page's message
list is processed unchanged, so every message is appended again. -/
theorem dropContinuedMessages_id_when_absent
    (m : Nat) (messages : List ThreadMessage)
    (habsent : ∀ msg ∈ messages, msg.id ≠ m) :
    dropContinuedMessages (some m) messages = messages
    ∧ processMessages (dropContinuedMessages (some m) messages) = processMessages messages := by
  have hid : dropContinuedMessages (some m) messages = messages := by
    by_cases hm : m = 0
    · simp [dropContinuedMessages, jsTruthyNat, hm]
    · have htruthy : jsTruthyNat (some m) = true := by
        simp [jsTruthyNat]
        omega
      have hfi : findIndex (fun msg' => msg'.id == m) messages = -1 := by
        apply findIndex_eq_neg_one
        intro x hx
        simpa using habsent x hx
      simp [dropContinuedMessages, htruthy, hfi]
  exact ⟨hid, by rw [hid]⟩

/-- Witness for C10: continuing from id 7 on a page holding ids 1 and 2
drops nothing. -/
theorem dropContinuedMessages_id_when_absent_witness :
    dropContinuedMessages (some 7) [(⟨1, "1", []⟩ : ThreadMessage), ⟨2, "2", []⟩]
      = [⟨1, "1", []⟩, ⟨2, "2", []⟩] :=
  (dropContinuedMessages_id_when_absent 7 [⟨1, "1", []⟩, ⟨2, "2", []⟩] (by decide)).1

/-! ## C2: resume markers advance monotonically, at message granularity -/

/-- `statusWrites` distributes over trace concatenation. -/
theorem statusWrites_append (a b : List ThreadEvent) :
    statusWrites (a ++ b) = statusWrites a ++ statusWrites b := by
  simp [statusWrites]

/-- The resume-marker ids written by one page's message loop are exactly the
ids of that page's messages, in page order. -/
theorem statusWrites_processMessages (msgs : List ThreadMessage) :
    statusWrites (processMessages msgs).1 = msgs.map ThreadMessage.id := by
  induction msgs with
  | nil => rfl
  | cons msg rest ih =>
    by_cases h : msg.attachments.length > 0 <;>
      simp [processMessages, statusWrites, h] <;>
      simpa [statusWrites] using ih

/-- Over a whole run, the sequence of resume-marker ids equals the sequence
of message ids of the run, page after page. -/
theorem statusWrites_threadRunTrace (pages : List (List ThreadMessage)) :
    statusWrites (threadRunTrace pages) = pagesMessageIDs pages := by
  induction pages with
  | nil => rfl
  | cons p ps ih =>
    simp only [threadRunTrace, List.map_cons, List.flatten_cons, statusWrites_append,
      statusWrites_processMessages, pagesMessageIDs, List.flatten_cons, List.map_append]
    rw [show statusWrites ((ps.map (fun msgs => (processMessages msgs).1)).flatten)
        = statusWrites (threadRunTrace ps) from rfl, ih]
    rfl

theorem savesImmediatelyAfterAppends_nil : SavesImmediatelyAfterAppends [] := by
  intro l r m h
  exact absurd h.symm (List.append_ne_nil_of_right_ne_nil l (List.cons_ne_nil _ _))

theorem savesImmediatelyAfterAppends_append {A B : List ThreadEvent}
    (hA : SavesImmediatelyAfterAppends A) (hB : SavesImmediatelyAfterAppends B) :
    SavesImmediatelyAfterAppends (A ++ B) := by
  intro l r m h
  rcases List.append_eq_append_iff.mp h with ⟨a', hl, hB'⟩ | ⟨c', hA', hsr⟩
  · have hlast : a'.getLast? = some (ThreadEvent.appendMessage m) := hB a' r m hB'
    rw [hl, List.getLast?_append, hlast]
    rfl
  · cases c' with
    | nil =>
      have hB0 : B = [] ++ ThreadEvent.saveStatus m :: r := by simpa using hsr.symm
      have hlast := hB [] r m hB0
      exact absurd hlast (by simp)
    | cons e c'' =>
      simp only [List.cons_append, List.cons.injEq] at hsr
      obtain ⟨he, hr⟩ := hsr
      rw [← he] at hA'
      exact hA l c'' m hA'

/-- The two-event fragment `[appendMessage i, saveStatus i]` satisfies the
save-after-append property. -/
theorem savesImmediatelyAfterAppends_pair (i : Nat) :
    SavesImmediatelyAfterAppends [ThreadEvent.appendMessage i, ThreadEvent.saveStatus i] := by
  intro l r m h
  match l with
  | [] => simp at h
  | [a] =>
    simp at h
    obtain ⟨ha, hm, -⟩ := h
    simp [← ha, hm]
  | a :: b :: l' =>
    simp at h

/-- The one-event fragment `[downloadAttachments i]` trivially satisfies the
save-after-append property (it contains no save). -/
theorem savesImmediatelyAfterAppends_dl (i : Nat) :
    SavesImmediatelyAfterAppends [ThreadEvent.downloadAttachments i] := by
  intro l r m h
  match l with
  | [] => simp at h
  | [a] => simp at h
  | a :: b :: l' => simp at h

/-- Every trace produced by the message loop has the save-after-append
property. -/
theorem savesImmediatelyAfterAppends_processMessages (msgs : List ThreadMessage) :
    SavesImmediatelyAfterAppends (processMessages msgs).1 := by
  induction msgs with
  | nil => exact savesImmediatelyAfterAppends_nil
  | cons msg rest ih =>
    have hfrag : SavesImmediatelyAfterAppends
        ((if msg.attachments.length > 0 then [ThreadEvent.downloadAttachments msg.id] else [])
          ++ [ThreadEvent.appendMessage msg.id, ThreadEvent.saveStatus msg.id]) := by
      by_cases h : msg.attachments.length > 0
      · simp only [h, if_pos]
        exact savesImmediatelyAfterAppends_append
          (savesImmediatelyAfterAppends_dl msg.id)
          (savesImmediatelyAfterAppends_pair msg.id)
      · simp only [h, if_neg, List.nil_append]
        simpa using savesImmediatelyAfterAppends_pair msg.id
    have hres := savesImmediatelyAfterAppends_append hfrag ih
    have hshape : (processMessages (msg :: rest)).1
        = ((if msg.attachments.length > 0 then [ThreadEvent.downloadAttachments msg.id] else [])
          ++ [ThreadEvent.appendMessage msg.id, ThreadEvent.saveStatus msg.id])
          ++ (processMessages rest).1 := by
      simp [processMessages]
    rw [hshape]
    exact hres

/-- The whole-run trace has the save-after-append property. -/
theorem savesImmediatelyAfterAppends_threadRunTrace (pages : List (List ThreadMessage)) :
    SavesImmediatelyAfterAppends (threadRunTrace pages) := by
  induction pages with
  | nil => exact savesImmediatelyAfterAppends_nil
  | cons p ps ih =>
    have : threadRunTrace (p :: ps) = (processMessages p).1 ++ threadRunTrace ps := by
      simp [threadRunTrace]
    rw [this]
    exact savesImmediatelyAfterAppends_append
      (savesImmediatelyAfterAppends_processMessages p) ih

/-- C2: under the precondition that message ids appear in strictly increasing
order within each page and across successive pages of the run, the sequence
of `messageID` values written to the thread's download-status record is
non-decreasing, and every marker write is immediately preceded by that
message's transcript append — the marker advances at message granularity. -/
theorem downloadStatus_messageID_monotone (pages : List (List ThreadMessage))
    (hsorted : (pagesMessageIDs pages).Chain' (· < ·)) :
    (statusWrites (threadRunTrace pages)).Chain' (· ≤ ·)
    ∧ ∀ l r m, threadRunTrace pages = l ++ ThreadEvent.saveStatus m :: r →
        l.getLast? = some (ThreadEvent.appendMessage m) := by
  constructor
  · rw [statusWrites_threadRunTrace]
    exact hsorted.imp fun a b h => Nat.le_of_lt h
  · exact savesImmediatelyAfterAppends_threadRunTrace pages

/-- Witness for C2 at a concrete run: two pages with message ids 1, 2 and 3. -/
theorem downloadStatus_messageID_monotone_witness :
    (statusWrites (threadRunTrace [[⟨1, "1", []⟩, ⟨2, "2", []⟩], [⟨3, "3", []⟩]])).Chain' (· ≤ ·) :=
  (downloadStatus_messageID_monotone [[⟨1, "1", []⟩, ⟨2, "2", []⟩], [⟨3, "3", []⟩]]
    (by simp [pagesMessageIDs])).1

/-! ## C3: cookie handling across redirect hops -/

/-- Counterexample to C3: on the chain
`forum.example.com/a → cdn.example.net/b → cdn.example.net/c`, the hop to
`cdn.example.net/c` is issued *with* the cookie even though its host
differs from the original request's host and an earlier hop already
crossed hosts — because `#fetchWithRedirect` compares each redirect target
only against the immediately preceding URL's host. -/
theorem fetchWithRedirect_cookie_reattached_after_cross_host :
    fetchWithRedirect crossHostNet true 10 ⟨"forum.example.com", "/a"⟩ true
      = some [⟨⟨"forum.example.com", "/a"⟩, true⟩,
              ⟨⟨"cdn.example.net", "/b"⟩, false⟩,
              ⟨⟨"cdn.example.net", "/c"⟩, true⟩]
    ∧ ("cdn.example.net" : String) ≠ "forum.example.com" := by
  constructor
  · rfl
  · decide

/-- C3 (amended): the cookie decision is per-hop.  In any completed redirect
chain, the first request carries the cookie exactly when a cookie is
configured and `useCookie` is set (always, at the public entry points), and
every subsequent request carries it exactly when a cookie is configured and
its URL's host equals the host of the immediately preceding request's URL —
so crossing hosts drops the cookie for the next hop only, and a later
same-host hop re-attaches it. -/
theorem fetchWithRedirect_cookie_matches_previous_host
    (net : URLv → NetResponse) (hasCookie : Bool) (fuel : Nat) (url : URLv)
    (useCookie : Bool) (evs : List FetchEvent)
    (h : fetchWithRedirect net hasCookie fuel url useCookie = some evs) :
    evs.head? = some ⟨url, hasCookie && useCookie⟩
    ∧ evs.Chain' (fun e1 e2 => e2.cookieSent = (hasCookie && (e1.url.host == e2.url.host))) := by
  induction fuel generalizing url useCookie evs with
  | zero => simp [fetchWithRedirect] at h
  | succ n ih =>
    rw [fetchWithRedirect] at h
    cases hnet : net url with
    | final =>
      rw [hnet] at h
      simp at h
      subst h
      exact ⟨rfl, List.chain'_singleton _⟩
    | redirect toURL =>
      rw [hnet] at h
      simp only at h
      cases hrec : fetchWithRedirect net hasCookie n toURL (url.host == toURL.host) with
      | none => rw [hrec] at h; simp at h
      | some evs' =>
        rw [hrec] at h
        simp at h
        subst h
        obtain ⟨hhead, hchain⟩ := ih toURL (url.host == toURL.host) evs' hrec
        refine ⟨rfl, ?_⟩
        rw [List.chain'_cons']
        refine ⟨?_, hchain⟩
        intro y hy
        rw [hhead] at hy
        simp at hy
        subst hy
        rfl

/-- Witness for the amended C3 on the concrete cross-host chain. -/
theorem fetchWithRedirect_cookie_matches_previous_host_witness :
    ([⟨⟨"forum.example.com", "/a"⟩, true⟩,
      ⟨⟨"cdn.example.net", "/b"⟩, false⟩,
      ⟨⟨"cdn.example.net", "/c"⟩, (true : Bool)⟩] : List FetchEvent).head?
      = some ⟨⟨"forum.example.com", "/a"⟩, true && true⟩ :=
  (fetchWithRedirect_cookie_matches_previous_host crossHostNet true 10
    ⟨"forum.example.com", "/a"⟩ true _ rfl).1

/-! ## C4: retry policy of `downloadAttachment` versus `fetchHTML` -/

/-- C4 evaluated at the failing input: a non-fatal network error rejecting
the fetch itself.  `fetchHTML` (the page fetch pipeline) retries it
`maxRetries = 3` times and then fails with a non-fatal `FetcherError`
annotated `retried 3 times` — but `downloadAttachment` propagates the raw
network error immediately, consuming no retry and leaving the file state
untouched, because its `#fetchWithRedirect` await sits outside the
try/catch.  A non-2xx response, in contrast, is retried by
`downloadAttachment` exactly as the claim states. -/
theorem downloadAttachment_fetch_rejection_unretried :
    downloadAttachment (fun _ => AttemptFate.fetchThrows FetchErr.networkError) 3 0
        ⟨false, FileState.absent, FileState.absent⟩
      = (Except.error FetchErr.networkError, ⟨false, FileState.absent, FileState.absent⟩)
    ∧ fetchHTML (fun _ => AttemptFate.fetchThrows FetchErr.networkError) 3 0
      = Except.error (FetchErr.fetcherError false 3)
    ∧ isErrorNonContinuable FetchErr.networkError = false
    ∧ downloadAttachment (fun _ => AttemptFate.respNotOk) 3 0
        ⟨false, FileState.absent, FileState.absent⟩
      = (Except.error (FetchErr.fetcherError false 3), ⟨false, FileState.absent, FileState.absent⟩) := by
  refine ⟨?_, ?_, rfl, ?_⟩
  · rw [downloadAttachment]
  · rw [fetchHTML]
    simp [isErrorNonContinuable]
    rw [fetchHTML]
    simp [isErrorNonContinuable]
    rw [fetchHTML]
    simp [isErrorNonContinuable]
    rw [fetchHTML]
    simp [isErrorNonContinuable]
  · rw [downloadAttachment]
    simp
    rw [downloadAttachment]
    simp
    rw [downloadAttachment]
    simp
    rw [downloadAttachment]
    simp

/-! ## C5: write-then-rename discipline of `downloadAttachment` -/

/-- Unfolding equation of `downloadAttachment` for an attempt whose
response fails `#assertResponseOK`. -/
theorem downloadAttachment_respNotOk_eq (fates : Nat → AttemptFate)
    (maxRetries rt : Nat) (fs : FS) (hf : fates rt = AttemptFate.respNotOk) :
    downloadAttachment fates maxRetries rt fs
      = if _h : rt < maxRetries then downloadAttachment fates maxRetries (rt + 1) fs
        else (Except.error (FetchErr.fetcherError false rt), fs) := by
  rw [downloadAttachment, hf]

/-- Unfolding equation of `downloadAttachment` for an attempt failing
mid-stream. -/
theorem downloadAttachment_streamFails_eq (fates : Nat → AttemptFate)
    (maxRetries rt : Nat) (fs : FS) (e : FetchErr)
    (hf : fates rt = AttemptFate.streamFails e) :
    downloadAttachment fates maxRetries rt fs
      = if isErrorNonContinuable e = true then
          (Except.error e, { dirExists := true, part := FileState.absent, dest := fs.dest })
        else if _h : rt < maxRetries then
          downloadAttachment fates maxRetries (rt + 1)
            { dirExists := true, part := FileState.absent, dest := fs.dest }
        else (Except.error (FetchErr.fetcherError false rt),
          { dirExists := true, part := FileState.absent, dest := fs.dest }) := by
  rw [downloadAttachment, hf]

/-- Unfolding equation of `downloadAttachment` for an attempt whose rename
step fails. -/
theorem downloadAttachment_renameFails_eq (fates : Nat → AttemptFate)
    (maxRetries rt : Nat) (fs : FS) (e : FetchErr)
    (hf : fates rt = AttemptFate.renameFails e) :
    downloadAttachment fates maxRetries rt fs
      = if isErrorNonContinuable e = true then
          (Except.error e, { dirExists := true, part := FileState.absent, dest := fs.dest })
        else if _h : rt < maxRetries then
          downloadAttachment fates maxRetries (rt + 1)
            { dirExists := true, part := FileState.absent, dest := fs.dest }
        else (Except.error (FetchErr.fetcherError false rt),
          { dirExists := true, part := FileState.absent, dest := fs.dest }) := by
  rw [downloadAttachment, hf]

/-- C5: starting with no stale `.part` file, `downloadAttachment` always
ends with the `.part` file deleted; the destination is either untouched or
holds the completely downloaded file (with its directory created); and on
every failing execution path — cancellation included — the destination is
exactly what it was before the call. -/
theorem downloadAttachment_never_leaves_partial_dest
    (fates : Nat → AttemptFate) (maxRetries rt : Nat) (fs₀ : FS)
    (hpart : fs₀.part = FileState.absent) :
    ((downloadAttachment fates maxRetries rt fs₀).2.part = FileState.absent)
    ∧ ((downloadAttachment fates maxRetries rt fs₀).2.dest = fs₀.dest
        ∨ ((downloadAttachment fates maxRetries rt fs₀).2.dest = FileState.complete
            ∧ (downloadAttachment fates maxRetries rt fs₀).2.dirExists = true))
    ∧ (∀ e, (downloadAttachment fates maxRetries rt fs₀).1 = Except.error e →
        (downloadAttachment fates maxRetries rt fs₀).2.dest = fs₀.dest) := by
  cases hf : fates rt with
  | fetchThrows e =>
    rw [downloadAttachment, hf]
    exact ⟨hpart, Or.inl rfl, fun _ _ => rfl⟩
  | success =>
    rw [downloadAttachment, hf]
    exact ⟨rfl, Or.inr ⟨rfl, rfl⟩, fun e he => Except.noConfusion he⟩
  | respNotOk =>
    rw [downloadAttachment_respNotOk_eq fates maxRetries rt fs₀ hf]
    by_cases h : rt < maxRetries
    · rw [dif_pos h]
      exact downloadAttachment_never_leaves_partial_dest fates maxRetries (rt + 1) fs₀ hpart
    · rw [dif_neg h]
      exact ⟨hpart, Or.inl rfl, fun _ _ => rfl⟩
  | streamFails e =>
    rw [downloadAttachment_streamFails_eq fates maxRetries rt fs₀ e hf]
    by_cases hc : isErrorNonContinuable e = true
    · rw [if_pos hc]
      exact ⟨rfl, Or.inl rfl, fun _ _ => rfl⟩
    · rw [if_neg hc]
      by_cases h : rt < maxRetries
      · rw [dif_pos h]
        exact downloadAttachment_never_leaves_partial_dest fates maxRetries (rt + 1)
          { dirExists := true, part := FileState.absent, dest := fs₀.dest } rfl
      · rw [dif_neg h]
        exact ⟨rfl, Or.inl rfl, fun _ _ => rfl⟩
  | renameFails e =>
    rw [downloadAttachment_renameFails_eq fates maxRetries rt fs₀ e hf]
    by_cases hc : isErrorNonContinuable e = true
    · rw [if_pos hc]
      exact ⟨rfl, Or.inl rfl, fun _ _ => rfl⟩
    · rw [if_neg hc]
      by_cases h : rt < maxRetries
      · rw [dif_pos h]
        exact downloadAttachment_never_leaves_partial_dest fates maxRetries (rt + 1)
          { dirExists := true, part := FileState.absent, dest := fs₀.dest } rfl
      · rw [dif_neg h]
        exact ⟨rfl, Or.inl rfl, fun _ _ => rfl⟩
termination_by maxRetries - rt
decreasing_by all_goals omega

/-- Witness for C5 at a concrete run: one mid-stream failure then
exhaustion, ending with the `.part` file gone. -/
theorem downloadAttachment_never_leaves_partial_dest_witness :
    ((downloadAttachment (fun _ => AttemptFate.streamFails FetchErr.networkError) 1 0
      ⟨false, FileState.absent, FileState.absent⟩).2.part = FileState.absent) :=
  (downloadAttachment_never_leaves_partial_dest
    (fun _ => AttemptFate.streamFails FetchErr.networkError) 1 0
    ⟨false, FileState.absent, FileState.absent⟩ rfl).1

/-! ## C6: errors confined to unit boundaries -/

/-- C6: sibling units whose errors are all continuable are every one of them
processed, each failure adding one to `errorCount` and stopping nothing;
and when a unit raises a non-continuable error (cancellation or a fatal
fetch error), the loop unwinds there — exactly the earlier siblings were
processed, and the units after it never run. -/
theorem errors_confined_to_unit_boundaries
    (pre : List (Option FetchErr)) (e : FetchErr) (post : List (Option FetchErr))
    (p₀ n₀ : Nat)
    (hpre : ∀ u ∈ pre, ∀ e', u = some e' → isErrorNonContinuable e' = false)
    (hfatal : isErrorNonContinuable e = true) :
    processUnits pre p₀ n₀ = Except.ok (p₀ + pre.length, n₀ + countFailedUnits pre)
    ∧ processUnits (pre ++ some e :: post) p₀ n₀
      = Except.error (e, p₀ + pre.length, n₀ + countFailedUnits pre) := by
  induction pre generalizing p₀ n₀ with
  | nil =>
    simp [processUnits, countFailedUnits, hfatal]
  | cons u rest ih =>
    have hrest : ∀ u' ∈ rest, ∀ e', u' = some e' → isErrorNonContinuable e' = false :=
      fun u' hu' => hpre u' (List.mem_cons_of_mem u hu')
    cases u with
    | none =>
      have := ih (p₀ + 1) n₀ hrest
      constructor
      · rw [show processUnits (none :: rest) p₀ n₀ = processUnits rest (p₀ + 1) n₀ from rfl,
          this.1]
        congr 1
        simp [countFailedUnits]
        omega
      · rw [show processUnits ((none :: rest) ++ some e :: post) p₀ n₀
            = processUnits (rest ++ some e :: post) (p₀ + 1) n₀ from rfl, this.2]
        congr 1
        simp [countFailedUnits]
        omega
    | some e' =>
      have he' : isErrorNonContinuable e' = false :=
        hpre (some e') (List.mem_cons_self _ _) e' rfl
      have := ih (p₀ + 1) (n₀ + 1) hrest
      constructor
      · rw [show processUnits (some e' :: rest) p₀ n₀
            = if isErrorNonContinuable e' then Except.error (e', p₀, n₀)
              else processUnits rest (p₀ + 1) (n₀ + 1) from rfl]
        rw [he']
        simp only [Bool.false_eq_true, if_false]
        rw [this.1]
        congr 1
        simp [countFailedUnits]
        omega
      · rw [show processUnits ((some e' :: rest) ++ some e :: post) p₀ n₀
            = if isErrorNonContinuable e' then Except.error (e', p₀, n₀)
              else processUnits (rest ++ some e :: post) (p₀ + 1) (n₀ + 1) from rfl]
        rw [he']
        simp only [Bool.false_eq_true, if_false]
        rw [this.2]
        congr 1
        simp [countFailedUnits]
        omega

/-- Witness for C6: one succeeding sibling, one failing with a parse-style
error, then cancellation; the two siblings are processed, the failure
counted, and the abort unwinds with those counts. -/
theorem errors_confined_to_unit_boundaries_witness :
    processUnits [none, some FetchErr.otherError] 0 0 = Except.ok (2, 1)
    ∧ processUnits ([none, some FetchErr.otherError] ++ some FetchErr.abortError :: [none]) 0 0
      = Except.error (FetchErr.abortError, 2, 1) :=
  errors_confined_to_unit_boundaries [none, some FetchErr.otherError]
    FetchErr.abortError [none] 0 0 (by decide) (by decide)

/-! ## C7: existing attachments are skipped without a fetch -/

/-- C7: when the resolved destination file already exists and overwrite is
off, `#downloadMessageAttachment` returns after incrementing only
`skippedExistingAttachmentCount`, performing no action at all — no network
fetch, no file write, `downloadedAttachmentCount` and `errorCount`
untouched. -/
theorem existing_attachment_skipped
    (sanitize : String → String) (existsFile : String → Bool)
    (outcome : Option FetchErr) (a : ThreadMessageAttachment)
    (destDir : String) (stats : AttachmentStats)
    (hexists : existsFile (pathResolve destDir (getMessageAttachmentFilename sanitize a)) = true) :
    downloadMessageAttachment sanitize existsFile false outcome a destDir stats
      = Except.ok ({ stats with
          skippedExistingAttachmentCount := stats.skippedExistingAttachmentCount + 1 }, []) := by
  simp [downloadMessageAttachment, hexists]

/-- Witness for C7 at a concrete attachment. -/
theorem existing_attachment_skipped_witness :
    downloadMessageAttachment id (fun _ => true) false Option.none
      ⟨5, 1, "https://site.example.com/attachments/5/", some "pic.jpg"⟩ "/out" ⟨0, 3, 2⟩
      = Except.ok (⟨1, 3, 2⟩, []) :=
  existing_attachment_skipped id (fun _ => true) Option.none
    ⟨5, 1, "https://site.example.com/attachments/5/", some "pic.jpg"⟩ "/out" ⟨0, 3, 2⟩ rfl

/-! ## C8: directory resolution example -/

/-- `URLHelper.parseForumURL` extracts the numeric id from a forum URL. -/
theorem parseForumURL_categorya :
    parseForumURL "https://site.example.com/forums/categorya.10/" = some 10 := by
  decide

/-- C8: with site directory, all ancestor forum directories and the thread
directory enabled, breadcrumbs `[Site, CategoryA, ForumB]`, thread title
`"Hello"` and id `42`, the resolved save path is
`<outDir>/Site/CategoryA.10/ForumB.11/Hello.42`, the ancestor ids `10` and
`11` being parsed from the breadcrumbs' forum URLs and every segment passing
through the filename sanitizer. -/
theorem getThreadSavePath_all_ancestors_example
    (sanitize : String → String) (outDir : String) :
    getThreadSavePath sanitize
      { site := true, parentForumsAndSections := ParentForumsOpt.all,
        thread := true, attachments := true }
      outDir
      { id := 42,
        url := "https://site.example.com/threads/hello.42/",
        title := "Hello",
        breadcrumbs := [
          ⟨"https://site.example.com/", "Site"⟩,
          ⟨"https://site.example.com/forums/categorya.10/", "CategoryA"⟩,
          ⟨"https://site.example.com/forums/forumb.11/", "ForumB"⟩],
        messages := [] }
      = [outDir, sanitize "Site", sanitize "CategoryA.10",
         sanitize "ForumB.11", sanitize "Hello.42"] := by
  rfl

/-! ## C9: forum traversal on a cyclic forum graph -/

/-- C9 evaluated at the failing input: on a forum page that lists itself as
its own subforum, `#downloadForum` has no visited set and recurses into the
same forum again and again — no amount of fuel completes the traversal, so
the unbounded JavaScript recursion never terminates. -/
theorem downloadForum_cyclic_never_completes :
    ∀ fuel, downloadForumFuel cyclicSite fuel "https://site.example.com/forums/a.1/"
      = Option.none := by
  intro fuel
  induction fuel with
  | zero => rw [downloadForumFuel]
  | succ n ih =>
    rw [downloadForumFuel]
    have hsite : cyclicSite "https://site.example.com/forums/a.1/"
        = some ⟨1, "A", ["https://site.example.com/forums/a.1/"], Option.none⟩ := by
      rw [cyclicSite]
      simp
    rw [hsite]
    simp only
    rw [downloadSubforumsFuel, ih]
